import Mathlib

/-!
Shallow embedding of the task query pipeline of the task-management
application: the data model (`Task`), query validation
(`validateAndParseQuery`), filtering (`filterTasks`), sorting (the default
comparator of the GET handler and the user-preference `sortTasks`),
statistics (`generateTaskStats`), and creation validation
(`createTaskSafeParse` / `POST`).

Conventions of the embedding:
* JavaScript `Date` values are embedded by their `getTime()` instant, an `Int`
  of milliseconds since the epoch.
* A JavaScript value of type `string | null` is an `Option String`; JavaScript
  truthiness of such a value (`if (s)`) is `strTruthy`: `none` and the empty
  string are falsy.
* `Array.prototype.sort(cmp)` is, per the ECMAScript specification, a stable
  sort whose output is ordered by the comparator whenever the comparator is
  consistent; it is embedded as a stable insertion sort by the relation
  `cmp a b ≤ 0` (for a consistent comparator the stable sorted permutation
  is unique, so this is exact).
* String enums (`TaskPriority`, `TaskStatus`) are inductive types together
  with their string `value`; raw query parameters hold the raw strings.
-/

namespace TaskApp

/-- Priority levels for tasks, the string enum `TaskPriority`. -/
inductive TaskPriority where
  | low
  | medium
  | high
deriving DecidableEq, Repr

/-- The string value of a `TaskPriority` enum member. -/
def TaskPriority.value : TaskPriority → String
  | .low => "low"
  | .medium => "medium"
  | .high => "high"

/-- Task status for filtering, the string enum `TaskStatus`. -/
inductive TaskStatus where
  | all
  | completed
  | pending
deriving DecidableEq, Repr

/-- The string value of a `TaskStatus` enum member. -/
def TaskStatus.value : TaskStatus → String
  | .all => "all"
  | .completed => "completed"
  | .pending => "pending"

/-- The `Task` record. `createdAt`, `updatedAt` and the optional `dueDate`
are embedded as `getTime()` instants. -/
structure Task where
  id : String
  title : String
  description : Option String
  completed : Bool
  priority : TaskPriority
  createdAt : Int
  updatedAt : Int
  category : Option String
  dueDate : Option Int
deriving DecidableEq, Repr

/-- JavaScript truthiness of a `string | null` value: `null` and `""` are
falsy, every other string is truthy. -/
def strTruthy : Option String → Bool
  | some s => s ≠ ""
  | none => false

/-- JavaScript `String.prototype.includes`: substring containment. -/
def jsIncludes (s sub : String) : Bool :=
  decide (sub.toList <:+: s.toList)

/-- JavaScript `String.prototype.toLowerCase`, embedded as a character-wise
lowercase map. -/
def jsToLower (s : String) : String :=
  ⟨s.toList.map Char.toLower⟩

/-- JavaScript `String.prototype.trim`: removes whitespace from both ends of
the string. -/
def jsTrim (s : String) : String :=
  ⟨((s.toList.dropWhile Char.isWhitespace).reverse.dropWhile Char.isWhitespace).reverse⟩

/-- The raw filter parameters of a query: `searchParams.get` yields
`string | null` for each of `status`, `priority`, `search`. The same shape is
what `validateAndParseQuery` returns as `params` (the code casts the raw
strings, it does not convert them). -/
structure FilterParams where
  status : Option String
  priority : Option String
  search : Option String
deriving DecidableEq, Repr

/-- Result of `validateAndParseQuery`. -/
structure QueryValidation where
  isValid : Bool
  errors : List String
  params : FilterParams
deriving DecidableEq, Repr

/-- The values of the `TaskStatus` enum, `Object.values(TaskStatus)`. -/
def statusValues : List String := ["all", "completed", "pending"]

/-- The values of the `TaskPriority` enum, `Object.values(TaskPriority)`. -/
def priorityValues : List String := ["low", "medium", "high"]

/-- Error message pushed for an invalid `status` parameter. -/
def statusErrorMsg (s : String) : String :=
  "Invalid status: " ++ s ++ ". Must be one of: all, completed, pending"

/-- Error message pushed for an invalid `priority` parameter. -/
def priorityErrorMsg (s : String) : String :=
  "Invalid priority: " ++ s ++ ". Must be one of: low, medium, high"

/-- Error message pushed for an over-long `search` parameter. -/
def searchErrorMsg : String :=
  "Search term must be 100 characters or less"

/-- Embedding of `validateAndParseQuery`: collects an error for a truthy
`status` outside the enum, a truthy `priority` outside the enum, and a truthy
`search` longer than 100 characters; `isValid` iff no error was collected;
`params` passes `status` and `priority` through raw and maps a falsy `search`
to `null`. -/
def validateAndParseQuery (q : FilterParams) : QueryValidation :=
  let errors : List String :=
    (if strTruthy q.status && !(statusValues.contains (q.status.getD "")) then
      [statusErrorMsg (q.status.getD "")]
    else []) ++
    (if strTruthy q.priority && !(priorityValues.contains (q.priority.getD "")) then
      [priorityErrorMsg (q.priority.getD "")]
    else []) ++
    (if strTruthy q.search && (q.search.getD "").length > 100 then
      [searchErrorMsg]
    else [])
  { isValid := errors.isEmpty
    errors := errors
    params :=
      { status := q.status
        priority := q.priority
        search := match q.search with
          | some s => if s = "" then none else some s
          | none => none } }

/-- Embedding of the predicate inside `filterTasks`' `tasks.filter(...)`
callback, with its early returns. -/
def taskMatches (f : FilterParams) (t : Task) : Bool :=
  if f.status == some TaskStatus.completed.value && !t.completed then false
  else if f.status == some TaskStatus.pending.value && t.completed then false
  else if strTruthy f.priority && !(some t.priority.value == f.priority) then false
  else if strTruthy f.search then
    let searchTerm := jsToLower (f.search.getD "")
    let titleMatch := jsIncludes (jsToLower t.title) searchTerm
    let descriptionMatch :=
      match t.description with
      | some d => jsIncludes (jsToLower d) searchTerm
      | none => false
    if !titleMatch && !descriptionMatch then false else true
  else true

/-- Embedding of `filterTasks`. -/
def filterTasks (tasks : List Task) (f : FilterParams) : List Task :=
  tasks.filter (taskMatches f)

/-- The `byPriority` mapping of `generateTaskStats`. -/
structure ByPriority where
  low : Nat
  medium : Nat
  high : Nat
deriving DecidableEq, Repr

/-- The record returned by `generateTaskStats`. -/
structure TaskStats where
  total : Nat
  completed : Nat
  pending : Nat
  byPriority : ByPriority
  filtered : Nat
deriving DecidableEq, Repr

/-- Embedding of `generateTaskStats`. `pending` is `allTasks.length -
completed`; since `completed` counts a sublist of `allTasks`, the natural
subtraction agrees with the JavaScript number subtraction. -/
def generateTaskStats (allTasks filteredTasks : List Task) : TaskStats :=
  let completed := (allTasks.filter (fun t => t.completed)).length
  { total := allTasks.length
    completed := completed
    pending := allTasks.length - completed
    byPriority :=
      { low := (allTasks.filter (fun t => t.priority == TaskPriority.low)).length
        medium := (allTasks.filter (fun t => t.priority == TaskPriority.medium)).length
        high := (allTasks.filter (fun t => t.priority == TaskPriority.high)).length }
    filtered := filteredTasks.length }

/-- Embedding of `Array.prototype.sort(cmp)`: a stable sort ordered by the
relation `cmp a b ≤ 0` (see the module comment). -/
def jsSort (cmp : Task → Task → Int) (l : List Task) : List Task :=
  l.insertionSort (fun a b => cmp a b ≤ 0)

/-- The `priorityOrder` map of the GET handler's default comparator:
high 3, medium 2, low 1. -/
def priorityOrderDefault : TaskPriority → Int
  | .high => 3
  | .medium => 2
  | .low => 1

/-- The GET handler's default comparator: completion status (incomplete
first), then priority (high to low), then creation date (newest first). -/
def cmpDefault (a b : Task) : Int :=
  if a.completed ≠ b.completed then (if a.completed then 1 else -1)
  else
    let priorityDiff := priorityOrderDefault b.priority - priorityOrderDefault a.priority
    if priorityDiff ≠ 0 then priorityDiff
    else b.createdAt - a.createdAt

/-- The default sort applied by the GET handler to the filtered tasks. -/
def sortDefault (l : List Task) : List Task :=
  jsSort cmpDefault l

/-- The result of the GET handler, reduced to its data: the sorted task list
and the statistics on success, the collected validation errors on refusal. -/
inductive GetResult where
  | ok (data : List Task) (stats : TaskStats)
  | badRequest (errors : List String)
deriving DecidableEq, Repr

/-- Embedding of the GET handler pipeline: validate, and on failure refuse
with the collected errors (no filtering, sorting or statistics happen on that
branch); on success filter, sort with the default comparator, and compute the
statistics over the full store and the filtered list. -/
def GET (store : List Task) (q : FilterParams) : GetResult :=
  let validation := validateAndParseQuery q
  if validation.isValid then
    let filteredTasks := filterTasks store validation.params
    let sortedTasks := sortDefault filteredTasks
    .ok sortedTasks (generateTaskStats store filteredTasks)
  else
    .badRequest validation.errors

/-- The sort fields of `UserPreferences.sortBy`. -/
inductive SortField where
  | priority
  | dueDate
  | createdAt
  | title
deriving DecidableEq, Repr

/-- The sort directions of `UserPreferences.sortOrder`. -/
inductive SortOrder where
  | asc
  | desc
deriving DecidableEq, Repr

/-- The `PRIORITY_ORDER` map of the utilities module: high 0, medium 1,
low 2. -/
def PRIORITY_ORDER : TaskPriority → Int
  | .high => 0
  | .medium => 1
  | .low => 2

/-- JavaScript `localeCompare`, embedded as the sign of the lexicographic
comparison of the two strings (the locale-dependent collation is out of
scope; only its comparator shape matters here). -/
def strCompare (a b : String) : Int :=
  if a < b then -1 else if b < a then 1 else 0

/-- The `comparison` value computed inside `sortTasks` for a sort field. -/
def cmpBy (sortBy : SortField) (a b : Task) : Int :=
  match sortBy with
  | .priority => PRIORITY_ORDER a.priority - PRIORITY_ORDER b.priority
  | .dueDate =>
    match a.dueDate, b.dueDate with
    | none, none => 0
    | none, some _ => 1
    | some _, none => -1
    | some x, some y => x - y
  | .createdAt => a.createdAt - b.createdAt
  | .title => strCompare a.title b.title

/-- Embedding of the utilities module's `sortTasks`: sorts a copy of the
array with the comparator that computes `comparison` for the chosen field and
returns it for ascending order and its negation for descending order. -/
def sortTasks (tasks : List Task) (sortBy : SortField) (sortOrder : SortOrder) : List Task :=
  jsSort
    (fun a b =>
      match sortOrder with
      | .asc => cmpBy sortBy a b
      | .desc => -(cmpBy sortBy a b))
    tasks

/-- The raw JSON body of a creation request, restricted to its four schema
fields; a field is `none` when absent from the JSON object. -/
structure CreateBody where
  title : Option String
  description : Option String
  priority : Option String
  category : Option String
deriving DecidableEq, Repr

/-- The validated data produced by a successful parse of
`createTaskSchema`. -/
structure CreateData where
  title : String
  description : Option String
  priority : TaskPriority
  category : Option String
deriving DecidableEq, Repr

/-- Parses a `TaskPriority` enum member from its string value. -/
def TaskPriority.ofString : String → Option TaskPriority
  | "low" => some .low
  | "medium" => some .medium
  | "high" => some .high
  | _ => none

/-- The `title` field of `createTaskSchema`:
`z.string().min(1).max(100).trim()`. The zod checks run in the order they
were chained, so `min(1)` and `max(100)` test the raw string and the `trim`
transform runs after them on the accepted value. -/
def parseTitle : Option String → Except (List String) String
  | none => .error ["title: Required"]
  | some s =>
    let errs :=
      (if s.length < 1 then ["title: Title is required"] else []) ++
      (if s.length > 100 then ["title: Title must be 100 characters or less"] else [])
    if errs.isEmpty then .ok (jsTrim s) else .error errs

/-- The `description` field of `createTaskSchema`:
`z.string().max(500).optional()`. -/
def parseDescription : Option String → Except (List String) (Option String)
  | none => .ok none
  | some s =>
    if s.length > 500 then .error ["description: Description must be 500 characters or less"]
    else .ok (some s)

/-- The `priority` field of `createTaskSchema`:
`z.enum(["low", "medium", "high"])` with a custom error message. -/
def parsePriority : Option String → Except (List String) TaskPriority
  | none => .error ["priority: Priority must be low, medium, or high"]
  | some s =>
    match TaskPriority.ofString s with
    | some p => .ok p
    | none => .error ["priority: Priority must be low, medium, or high"]

/-- The `category` field of `createTaskSchema`:
`z.string().max(50).optional()`. -/
def parseCategory : Option String → Except (List String) (Option String)
  | none => .ok none
  | some s =>
    if s.length > 50 then .error ["category: Category must be 50 characters or less"]
    else .ok (some s)

/-- The errors of a field parse, empty on success. -/
def fieldErrors {α : Type} : Except (List String) α → List String
  | .error e => e
  | .ok _ => []

/-- Embedding of `createTaskSchema.safeParse`: zod validates every field of
the object and collects the issues of all of them. -/
def createTaskSafeParse (b : CreateBody) : Except (List String) CreateData :=
  match parseTitle b.title, parseDescription b.description,
    parsePriority b.priority, parseCategory b.category with
  | .ok t, .ok d, .ok p, .ok c => .ok { title := t, description := d, priority := p, category := c }
  | et, ed, ep, ec => .error (fieldErrors et ++ fieldErrors ed ++ fieldErrors ep ++ fieldErrors ec)

/-- The result of the POST handler, reduced to its data. -/
inductive PostResult where
  | created (t : Task)
  | validationError (errors : List String)
deriving DecidableEq, Repr

/-- Embedding of the POST handler: validate the body with the schema; on
failure return the collected issues and leave the store alone; on success
build the new task (`completed: false`, both timestamps set to the single
`new Date()` instant `now`, the `description` and `category` spreads applied
only when the validated value is truthy), push it to the store, and return
it. -/
def POST (store : List Task) (body : CreateBody) (newId : String) (now : Int) :
    List Task × PostResult :=
  match createTaskSafeParse body with
  | .error e => (store, .validationError e)
  | .ok d =>
    let newTask : Task :=
      { id := newId
        title := d.title
        description :=
          match d.description with
          | some s => if s = "" then none else some s
          | none => none
        completed := false
        priority := d.priority
        createdAt := now
        updatedAt := now
        category :=
          match d.category with
          | some s => if s = "" then none else some s
          | none => none
        dueDate := none }
    (store ++ [newTask], .created newTask)

/-- C6: for every input collection and filter specification, filtering
returns a subsequence of the input (so every output item appears in the
input, in the same relative order) and no task occurs more often in the
output than in the input. -/
theorem filterTasks_sublist (l : List Task) (f : FilterParams) :
    (filterTasks l f).Sublist l ∧ ∀ t : Task, (filterTasks l f).count t ≤ l.count t :=
  ⟨List.filter_sublist l, fun t => (List.filter_sublist l).count_le t⟩

/-- C7: the statistics record reports the size of the full collection as
`total`, the number of completed tasks as `completed`, `pending` so that
`completed + pending = total`, the per-priority counts over the full
collection, and the size of the filtered subsequence as `filtered`. -/
theorem generateTaskStats_correct (allTasks filteredTasks : List Task) :
    (generateTaskStats allTasks filteredTasks).total = allTasks.length ∧
    (generateTaskStats allTasks filteredTasks).completed
      = allTasks.countP (fun t => t.completed) ∧
    (generateTaskStats allTasks filteredTasks).completed
        + (generateTaskStats allTasks filteredTasks).pending
      = (generateTaskStats allTasks filteredTasks).total ∧
    (generateTaskStats allTasks filteredTasks).byPriority.low
      = allTasks.countP (fun t => t.priority == TaskPriority.low) ∧
    (generateTaskStats allTasks filteredTasks).byPriority.medium
      = allTasks.countP (fun t => t.priority == TaskPriority.medium) ∧
    (generateTaskStats allTasks filteredTasks).byPriority.high
      = allTasks.countP (fun t => t.priority == TaskPriority.high) ∧
    (generateTaskStats allTasks filteredTasks).filtered = filteredTasks.length := by
  refine ⟨rfl, ?_, ?_, ?_, ?_, ?_, rfl⟩
  · simp [generateTaskStats, List.countP_eq_length_filter]
  · have h := List.length_filter_le (fun t => t.completed) allTasks
    simp only [generateTaskStats]
    omega
  · simp [generateTaskStats, List.countP_eq_length_filter]
  · simp [generateTaskStats, List.countP_eq_length_filter]
  · simp [generateTaskStats, List.countP_eq_length_filter]

/-- C9: filtering by `status=completed` and then filtering the result again
by `status=pending` yields the empty sequence, whatever the other filter
criteria of the two passes are. -/
theorem filterTasks_completed_then_pending (l : List Task) (p₁ s₁ p₂ s₂ : Option String) :
    filterTasks
      (filterTasks l { status := some TaskStatus.completed.value, priority := p₁, search := s₁ })
      { status := some TaskStatus.pending.value, priority := p₂, search := s₂ } = [] := by
  unfold filterTasks
  rw [List.filter_eq_nil_iff]
  intro t ht
  have hm := (List.mem_filter.mp ht).2
  have hc : t.completed = true := by
    by_contra hfalse
    have hcf : t.completed = false := by revert hfalse; cases t.completed <;> simp
    simp [taskMatches, hcf] at hm
  simp [taskMatches, TaskStatus.value, hc]

theorem cmpBy_dueDate_add_eq_zero (a b : Task) :
    cmpBy SortField.dueDate a b + cmpBy SortField.dueDate b a = 0 := by
  rcases ha : a.dueDate with _ | x <;> rcases hb : b.dueDate with _ | y <;>
    simp_all [cmpBy] <;> omega

theorem cmpBy_dueDate_trans (a b c : Task)
    (hab : cmpBy SortField.dueDate a b ≤ 0) (hbc : cmpBy SortField.dueDate b c ≤ 0) :
    cmpBy SortField.dueDate a c ≤ 0 := by
  rcases ha : a.dueDate with _ | x <;> rcases hb : b.dueDate with _ | y <;>
    rcases hc : c.dueDate with _ | z <;> simp_all [cmpBy] <;> omega

/-- Allowed adjacency for the ascending due-date order: a task without a due
date is never followed by a dated task, and two dated tasks are in
nondecreasing order of their instants. -/
def dueAscOK (a b : Task) : Prop :=
  match a.dueDate, b.dueDate with
  | some x, some y => x ≤ y
  | some _, none => True
  | none, none => True
  | none, some _ => False

/-- Allowed adjacency for the descending due-date order: a dated task is
never followed by a task without a due date, and two dated tasks are in
nonincreasing order of their instants. -/
def dueDescOK (a b : Task) : Prop :=
  match a.dueDate, b.dueDate with
  | some x, some y => y ≤ x
  | some _, none => False
  | none, none => True
  | none, some _ => True

theorem dueAscOK_of_cmp (a b : Task) (h : cmpBy SortField.dueDate a b ≤ 0) :
    dueAscOK a b := by
  rcases ha : a.dueDate with _ | x <;> rcases hb : b.dueDate with _ | y <;>
    simp_all [cmpBy, dueAscOK] <;> omega

theorem dueDescOK_of_cmp (a b : Task) (h : -(cmpBy SortField.dueDate a b) ≤ 0) :
    dueDescOK a b := by
  rcases ha : a.dueDate with _ | x <;> rcases hb : b.dueDate with _ | y <;>
    simp_all [cmpBy, dueDescOK] <;> omega

/-- The dated task of the C1 counterexample. -/
def cexDated : Task :=
  { id := "1", title := "a", description := none, completed := false,
    priority := .high, createdAt := 10, updatedAt := 10, category := none,
    dueDate := some 5 }

/-- The task without a due date of the C1 counterexample. -/
def cexUndated : Task :=
  { id := "2", title := "b", description := none, completed := false,
    priority := .low, createdAt := 20, updatedAt := 20, category := none,
    dueDate := none }

/-- C1 counterexample: sorting by due date in the descending direction places
the task without a due date first, before the dated task, so it is false that
a task without a due date appears after all dated tasks regardless of
direction. -/
theorem sortTasks_dueDate_desc_counterexample :
    sortTasks [cexDated, cexUndated] SortField.dueDate SortOrder.desc
        = [cexUndated, cexDated] ∧
      ¬ List.Pairwise (fun a b : Task => a.dueDate = none → b.dueDate = none)
        (sortTasks [cexDated, cexUndated] SortField.dueDate SortOrder.desc) := by
  constructor
  · decide
  · decide

/-- C1 (amended): sorting by due date puts tasks without a due date after all
dated tasks in the ascending direction but before all dated tasks in the
descending direction; dated tasks are ordered by comparing their instants,
with the comparison reversed in the descending direction. The output is a
permutation of the input either way. -/
theorem sortTasks_dueDate_order (l : List Task) :
    List.Pairwise dueAscOK (sortTasks l SortField.dueDate SortOrder.asc) ∧
    List.Pairwise dueDescOK (sortTasks l SortField.dueDate SortOrder.desc) ∧
    (sortTasks l SortField.dueDate SortOrder.asc).Perm l ∧
    (sortTasks l SortField.dueDate SortOrder.desc).Perm l := by
  have hasc : sortTasks l SortField.dueDate SortOrder.asc
      = List.insertionSort (fun a b => cmpBy SortField.dueDate a b ≤ 0) l := rfl
  have hdesc : sortTasks l SortField.dueDate SortOrder.desc
      = List.insertionSort (fun a b => -(cmpBy SortField.dueDate a b) ≤ 0) l := rfl
  haveI : IsTrans Task (fun a b => cmpBy SortField.dueDate a b ≤ 0) :=
    ⟨fun a b c => cmpBy_dueDate_trans a b c⟩
  haveI : IsTotal Task (fun a b => cmpBy SortField.dueDate a b ≤ 0) :=
    ⟨fun a b => by have := cmpBy_dueDate_add_eq_zero a b; omega⟩
  haveI : IsTrans Task (fun a b => -(cmpBy SortField.dueDate a b) ≤ 0) :=
    ⟨fun a b c hab hbc => by
      have hba : cmpBy SortField.dueDate b a ≤ 0 := by
        have := cmpBy_dueDate_add_eq_zero a b; omega
      have hcb : cmpBy SortField.dueDate c b ≤ 0 := by
        have := cmpBy_dueDate_add_eq_zero b c; omega
      have hca := cmpBy_dueDate_trans c b a hcb hba
      have := cmpBy_dueDate_add_eq_zero a c
      omega⟩
  haveI : IsTotal Task (fun a b => -(cmpBy SortField.dueDate a b) ≤ 0) :=
    ⟨fun a b => by have := cmpBy_dueDate_add_eq_zero a b; omega⟩
  refine ⟨?_, ?_, ?_, ?_⟩
  · rw [hasc]
    exact List.Pairwise.imp (fun hab => dueAscOK_of_cmp _ _ hab)
      (List.sorted_insertionSort _ l)
  · rw [hdesc]
    exact List.Pairwise.imp (fun hab => dueDescOK_of_cmp _ _ hab)
      (List.sorted_insertionSort _ l)
  · rw [hasc]; exact List.perm_insertionSort _ l
  · rw [hdesc]; exact List.perm_insertionSort _ l

/-- The completion rank implicit in the default comparator's first step. -/
def completedRank (t : Task) : Int := if t.completed then 1 else 0

theorem cmpDefault_le_iff (a b : Task) :
    cmpDefault a b ≤ 0 ↔
      (completedRank a < completedRank b ∨
        (completedRank a = completedRank b ∧
          (priorityOrderDefault b.priority < priorityOrderDefault a.priority ∨
            (priorityOrderDefault b.priority = priorityOrderDefault a.priority ∧
              b.createdAt ≤ a.createdAt)))) := by
  cases hac : a.completed <;> cases hbc : b.completed <;>
    by_cases h : priorityOrderDefault b.priority - priorityOrderDefault a.priority = 0 <;>
      simp [cmpDefault, completedRank, hac, hbc, h] <;> omega

theorem cmpDefault_trans (a b c : Task) (hab : cmpDefault a b ≤ 0)
    (hbc : cmpDefault b c ≤ 0) : cmpDefault a c ≤ 0 := by
  rw [cmpDefault_le_iff] at hab hbc ⊢
  omega

theorem cmpDefault_total (a b : Task) : cmpDefault a b ≤ 0 ∨ cmpDefault b a ≤ 0 := by
  rw [cmpDefault_le_iff, cmpDefault_le_iff]
  omega

/-- HIGH sorts before MEDIUM, which sorts before LOW. -/
def priorityHigher (p q : TaskPriority) : Prop :=
  (p = TaskPriority.high ∧ q ≠ TaskPriority.high) ∨
  (p = TaskPriority.medium ∧ q = TaskPriority.low)

/-- Allowed adjacency for the default list ordering: an incomplete task
before a completed one; or equal completion and strictly higher priority
first; or equal completion and priority and nonincreasing creation
instants. -/
def defaultOrderOK (a b : Task) : Prop :=
  (a.completed = false ∧ b.completed = true) ∨
  (a.completed = b.completed ∧ priorityHigher a.priority b.priority) ∨
  (a.completed = b.completed ∧ a.priority = b.priority ∧ b.createdAt ≤ a.createdAt)

theorem defaultOrderOK_of_cmp (a b : Task) (h : cmpDefault a b ≤ 0) :
    defaultOrderOK a b := by
  rw [cmpDefault_le_iff] at h
  cases hac : a.completed <;> cases hbc : b.completed <;>
    cases hpa : a.priority <;> cases hpb : b.priority <;>
      simp_all [completedRank, priorityOrderDefault, defaultOrderOK, priorityHigher] <;>
        omega

/-- C3: the default ordering applied by the list query places every
incomplete task before every completed one; within equal completion state,
HIGH priority before MEDIUM before LOW; within equal completion state and
priority, tasks with a later creation instant never come after tasks with an
earlier one. The output is a permutation of the input. -/
theorem sortDefault_order (l : List Task) :
    List.Pairwise defaultOrderOK (sortDefault l) ∧ (sortDefault l).Perm l := by
  have heq : sortDefault l = List.insertionSort (fun a b => cmpDefault a b ≤ 0) l := rfl
  haveI : IsTrans Task (fun a b => cmpDefault a b ≤ 0) := ⟨cmpDefault_trans⟩
  haveI : IsTotal Task (fun a b => cmpDefault a b ≤ 0) := ⟨cmpDefault_total⟩
  constructor
  · rw [heq]
    exact List.Pairwise.imp (fun hab => defaultOrderOK_of_cmp _ _ hab)
      (List.sorted_insertionSort _ l)
  · rw [heq]; exact List.perm_insertionSort _ l

/-- A validated filter specification, the typed shape the spec gives to
filter specifications: each criterion is either absent or a member of its
enumeration. -/
structure ValidatedFilter where
  status : Option TaskStatus
  priority : Option TaskPriority
  search : Option String
deriving DecidableEq, Repr

/-- The raw query parameters a validated filter specification denotes. -/
def ValidatedFilter.toParams (f : ValidatedFilter) : FilterParams :=
  { status := f.status.map TaskStatus.value
    priority := f.priority.map TaskPriority.value
    search := f.search }

/-- The status criterion as the claim states it: ALL keeps everything,
COMPLETED keeps only completed tasks, PENDING keeps only incomplete tasks; an
absent status keeps everything. -/
def statusKeeps : Option TaskStatus → Task → Bool
  | some .all, _ => true
  | some .completed, t => t.completed
  | some .pending, t => !t.completed
  | none, _ => true

/-- The priority criterion as the claim states it: a specified priority
keeps only tasks whose priority equals it exactly. -/
def priorityKeeps : Option TaskPriority → Task → Bool
  | some p, t => t.priority == p
  | none, _ => true

/-- The search criterion as the claim states it: a specified term keeps only
tasks where it appears case-insensitively as a substring of the title or of
the description; a task without a description matches only via its title. -/
def searchKeeps : Option String → Task → Bool
  | some term, t =>
    jsIncludes (jsToLower t.title) (jsToLower term) ||
      (match t.description with
       | some d => jsIncludes (jsToLower d) (jsToLower term)
       | none => false)
  | none, _ => true

theorem jsIncludes_empty (s : String) : jsIncludes s "" = true := by
  rw [jsIncludes, decide_eq_true_eq]
  exact List.nil_infix

theorem taskMatches_toParams (f : ValidatedFilter) (t : Task) :
    taskMatches f.toParams t
      = (statusKeeps f.status t && priorityKeeps f.priority t && searchKeeps f.search t) := by
  obtain ⟨st, pr, se⟩ := f
  rcases st with _ | st
  all_goals try cases st
  all_goals rcases pr with _ | pr
  all_goals try cases pr
  all_goals rcases se with _ | se
  all_goals try by_cases hse : se = ""
  all_goals cases hc : t.completed
  all_goals cases hp : t.priority
  all_goals simp_all [taskMatches, ValidatedFilter.toParams, statusKeeps, priorityKeeps,
    searchKeeps, strTruthy, TaskStatus.value, TaskPriority.value, jsIncludes_empty, jsToLower]

/-- C4: for every collection and every validated filter specification, the
filtering operation keeps exactly the tasks satisfying the conjunction of the
status, priority and search criteria. -/
theorem filterTasks_conjunction (l : List Task) (f : ValidatedFilter) :
    filterTasks l f.toParams
      = l.filter (fun t =>
          statusKeeps f.status t && priorityKeeps f.priority t && searchKeeps f.search t) := by
  unfold filterTasks
  exact List.filter_congr (fun t _ => taskMatches_toParams f t)

/-- The status rule of query validation is violated: a truthy status value
outside the enumeration. -/
def statusViolated (q : FilterParams) : Bool :=
  strTruthy q.status && !(statusValues.contains (q.status.getD ""))

/-- The priority rule of query validation is violated: a truthy priority
value outside the enumeration. -/
def priorityViolated (q : FilterParams) : Bool :=
  strTruthy q.priority && !(priorityValues.contains (q.priority.getD ""))

/-- The search rule of query validation is violated: a truthy search value of
more than 100 characters. -/
def searchViolated (q : FilterParams) : Bool :=
  strTruthy q.search && (q.search.getD "").length > 100

/-- C5: the validator collects every violated rule (the three rules
contribute their messages independently, so none masks another), and whenever
at least one rule is violated the pipeline refuses the query: the GET
handler returns the bad-request result carrying exactly the collected errors,
and its success branch — filtering, sorting, statistics — is not taken. -/
theorem validateQuery_exhaustive (store : List Task) (q : FilterParams)
    (h : statusViolated q = true ∨ priorityViolated q = true ∨ searchViolated q = true) :
    (validateAndParseQuery q).errors =
        (if statusViolated q then [statusErrorMsg (q.status.getD "")] else []) ++
        (if priorityViolated q then [priorityErrorMsg (q.priority.getD "")] else []) ++
        (if searchViolated q then [searchErrorMsg] else []) ∧
      (validateAndParseQuery q).errors ≠ [] ∧
      GET store q = GetResult.badRequest (validateAndParseQuery q).errors := by
  have hdecomp : (validateAndParseQuery q).errors =
      (if statusViolated q then [statusErrorMsg (q.status.getD "")] else []) ++
      (if priorityViolated q then [priorityErrorMsg (q.priority.getD "")] else []) ++
      (if searchViolated q then [searchErrorMsg] else []) := rfl
  have hne : (validateAndParseQuery q).errors ≠ [] := by
    intro hnil
    rw [hdecomp] at hnil
    rcases h with hv | hv | hv <;> simp [hv] at hnil
  refine ⟨hdecomp, hne, ?_⟩
  have hEmpty : (validateAndParseQuery q).errors.isEmpty = false := by
    rcases hE : (validateAndParseQuery q).errors with _ | ⟨a, as⟩
    · exact absurd hE hne
    · rfl
  have hIsValid : (validateAndParseQuery q).isValid = false := hEmpty
  simp [GET, hIsValid]

/-- Witness for C5: the query with status `bogus` is refused by the GET
handler with the status error collected. -/
theorem validateQuery_exhaustive_witness :
    GET [] { status := some "bogus", priority := none, search := none }
      = GetResult.badRequest [statusErrorMsg "bogus"] := by
  have h := validateQuery_exhaustive []
    { status := some "bogus", priority := none, search := none } (Or.inl (by decide))
  exact h.2.2.trans (by decide)

/-- Maps an empty-string parameter to an absent one; the identity on every
other value. -/
def emptyToNone : Option String → Option String
  | some s => if s = "" then none else some s
  | none => none

/-- Replaces each empty-string query parameter by an absent one. -/
def normalizeQuery (q : FilterParams) : FilterParams :=
  { status := emptyToNone q.status
    priority := emptyToNone q.priority
    search := emptyToNone q.search }

theorem taskMatches_emptyToNone (st pr se : Option String) (t : Task) :
    taskMatches { status := st, priority := pr, search := se } t
      = taskMatches
          { status := emptyToNone st, priority := emptyToNone pr, search := emptyToNone se }
          t := by
  rcases st with _ | s₁
  all_goals try by_cases h₁ : s₁ = ""
  all_goals rcases pr with _ | s₂
  all_goals try by_cases h₂ : s₂ = ""
  all_goals rcases se with _ | s₃
  all_goals try by_cases h₃ : s₃ = ""
  all_goals simp_all [taskMatches, emptyToNone, strTruthy, TaskStatus.value, TaskPriority.value]

theorem validate_errors_emptyToNone (q : FilterParams) :
    (validateAndParseQuery q).errors = (validateAndParseQuery (normalizeQuery q)).errors := by
  obtain ⟨st, pr, se⟩ := q
  rcases st with _ | s₁
  all_goals try by_cases h₁ : s₁ = ""
  all_goals rcases pr with _ | s₂
  all_goals try by_cases h₂ : s₂ = ""
  all_goals rcases se with _ | s₃
  all_goals try by_cases h₃ : s₃ = ""
  all_goals simp_all [validateAndParseQuery, normalizeQuery, emptyToNone, strTruthy]

/-- C10: an empty-string query parameter is treated exactly like an absent
one: validation collects the same errors (in particular none for the empty
strings, which are not members of the enumerations), and filtering applies no
criterion for it — a query of only empty-string parameters keeps every
task. -/
theorem emptyParams_like_absent (q : FilterParams) (l : List Task) :
    (validateAndParseQuery q).errors = (validateAndParseQuery (normalizeQuery q)).errors ∧
    filterTasks l q = filterTasks l (normalizeQuery q) ∧
    filterTasks l { status := some "", priority := some "", search := some "" } = l ∧
    (validateAndParseQuery { status := some "", priority := some "", search := some "" }).errors
      = [] ∧
    statusValues.contains "" = false ∧ priorityValues.contains "" = false := by
  refine ⟨validate_errors_emptyToNone q, ?_, ?_, by decide, by decide, by decide⟩
  · unfold filterTasks
    exact List.filter_congr (fun t _ => taskMatches_emptyToNone q.status q.priority q.search t)
  · unfold filterTasks
    rw [List.filter_eq_self]
    intro t _
    rw [taskMatches_emptyToNone]
    simp [taskMatches, emptyToNone, strTruthy]

/-- The whitespace-only-title creation request of the C2 analysis. -/
def whitespaceTitleBody : CreateBody :=
  { title := some "  ", description := none, priority := some "medium", category := none }

/-- C2: the creation schema accepts a whitespace-only title — the `min(1)`
check runs on the raw string and the `trim` transform only afterwards — so
the POST handler appends a task with an empty title to the store and returns
it as created, instead of rejecting the request with a validation error. -/
theorem whitespace_title_accepted :
    createTaskSafeParse whitespaceTitleBody
        = Except.ok
            { title := "", description := none, priority := TaskPriority.medium,
              category := none } ∧
      POST [] whitespaceTitleBody "new-id" 0
        = ([{ id := "new-id", title := "", description := none, completed := false,
              priority := TaskPriority.medium, createdAt := 0, updatedAt := 0,
              category := none, dueDate := none }],
            PostResult.created
              { id := "new-id", title := "", description := none, completed := false,
                priority := TaskPriority.medium, createdAt := 0, updatedAt := 0,
                category := none, dueDate := none }) := by
  exact ⟨rfl, rfl⟩

/-- C8: every creation input accepted by the schema makes POST append exactly
one new task to the store — a task with `completed` false and equal creation
and update instants — and return that task; the rest of the store is
unchanged. -/
theorem POST_success (store : List Task) (body : CreateBody) (newId : String)
    (now : Int) (d : CreateData) (h : createTaskSafeParse body = Except.ok d) :
    ∃ t : Task,
      POST store body newId now = (store ++ [t], PostResult.created t) ∧
        t.completed = false ∧ t.createdAt = now ∧ t.updatedAt = now := by
  unfold POST
  rw [h]
  exact ⟨_, rfl, rfl, rfl, rfl⟩

/-- The `Buy milk` creation request of the C8 witness. -/
def buyMilkBody : CreateBody :=
  { title := some "Buy milk", description := none, priority := some "medium",
    category := none }

/-- Witness for C8: creating a task with title `Buy milk` and priority
`medium` succeeds, appends the new task, and the new task is incomplete with
equal timestamps. -/
theorem POST_success_witness :
    ∃ t : Task,
      POST [] buyMilkBody "id-1" 42 = ([] ++ [t], PostResult.created t) ∧
        t.completed = false ∧ t.createdAt = 42 ∧ t.updatedAt = 42 :=
  POST_success [] buyMilkBody "id-1" 42
    { title := "Buy milk", description := none, priority := TaskPriority.medium,
      category := none } (by rfl)

end TaskApp
